import Mathlib

/-!
Shallow embedding of the Weight Logger backend service (Python sources under
`src/backend/service/`): the entry data model and CSV (de)serialization from
`entry.py`, unit conversion from `util.py`, the user manager and JWT
authentication from `user.py`, and the `Service` CRUD operations from
`service/__init__.py`.

Modelling conventions:
* Python `float` weights are modelled as exact rationals (`ℚ`).  Python's
  `round(x, n)` and the `f"{x:,.nf}"` format both round half to even,
  modelled by `pyRoundInt`.  Arithmetic inside definitions is phrased with
  `Rat.divInt` and integer operations so that every definition evaluates by
  kernel reduction; bridge lemmas relate them to the ordinary `ℚ`
  operations.
* Python strings are modelled as `String`, with all parsing and formatting
  done on the underlying `List Char`; every separator the source splits on
  (`'\n'`, `','`, `'-'`, `'.'`) is a single character, so Python's
  `str.split(sep)` is `splitOnChar` and `str.strip()` is `pyStrip`.
* Database tables are explicit lists of rows plus the generated-id counter
  (the `Identity(start=100)` column).  A SQLAlchemy `Session.begin()` block
  commits when the block exits normally and rolls back on an exception, so
  each service operation is a function from the table to `Except`: on
  `.error` no new table is produced and the stored rows are unchanged
  (rollback).  `Service.add_entries_from_csv` takes an extra `failAt`
  oracle injecting a `SQLAlchemyError` at a given loop index, to model a
  database failure partway through persisting a file.
* Signed JWTs are modelled as records carrying the claims together with the
  signing key that produced them; decoding under a different key fails,
  modelling signature verification.  Argon2 password hashing is modelled by
  an arbitrary hash-function parameter `hashF`; verification succeeds
  exactly on the stored hash.
-/

namespace WeightLog

/-! ## Rounding and unit conversion (`util.py`) -/

/-- Python `round(x)`: round half to even (banker's rounding).  Writing
`q = f * den + r` with `f = ⌊q⌋`, the fractional part is `r / den`. -/
def pyRoundInt (q : ℚ) : ℤ :=
  let f : ℤ := Int.fdiv q.num (q.den : ℤ)
  let r : ℤ := q.num - f * (q.den : ℤ)
  if 2 * r < (q.den : ℤ) then f
  else if (q.den : ℤ) < 2 * r then f + 1
  else if f % 2 = 0 then f else f + 1

/-- Multiply a rational by `10 ^ n` (computably). -/
def qscale (q : ℚ) (n : ℕ) : ℚ := Rat.divInt (q.num * 10 ^ n) (q.den : ℤ)

/-- Python `round(x, n)` for `n` decimal places. -/
def pyRound (q : ℚ) (n : ℕ) : ℚ := Rat.divInt (pyRoundInt (qscale q n)) (10 ^ n)

/-- Computable product of two rationals. -/
def qmul (a b : ℚ) : ℚ := Rat.divInt (a.num * b.num) ((a.den : ℤ) * (b.den : ℤ))

/-- Computable quotient of two rationals. -/
def qdiv (a b : ℚ) : ℚ := Rat.divInt (a.num * (b.den : ℤ)) ((a.den : ℤ) * b.num)

/-- Conversion factor from `util.py`: `KG_PER_LB: float = 0.45359237`. -/
def KG_PER_LB : ℚ := Rat.divInt 45359237 100000000

/-- Convert lbs to kg: `round(lbs * KG_PER_LB, 1)`. -/
def convert_to_metric (lbs : ℚ) : ℚ := pyRound (qmul lbs KG_PER_LB) 1

/-- Convert kg to lbs: `round(kilograms / KG_PER_LB, 0)`. -/
def convert_to_english (kilograms : ℚ) : ℚ := pyRound (qdiv kilograms KG_PER_LB) 0

/-- Units name: `"kg" if metric else "lb"`. -/
def determine_units_name (metric : Bool) : String := if metric then "kg" else "lb"


/-! ## Calendar dates (`datetime.date`) -/

/-- Calendar date, as produced by `datetime.datetime.strptime(s, "%Y-%m-%d")`. -/
structure PyDate where
  year : ℕ
  month : ℕ
  day : ℕ
deriving DecidableEq, Repr

/-- Lexicographic (chronological) order on dates. -/
def PyDate.le (a b : PyDate) : Prop :=
  a.year < b.year ∨ (a.year = b.year ∧
    (a.month < b.month ∨ (a.month = b.month ∧ a.day ≤ b.day)))

instance PyDate.decLe : DecidableRel PyDate.le := fun a b => by
  unfold PyDate.le
  infer_instance

instance PyDate.leTotal : IsTotal PyDate PyDate.le := by
  constructor
  intro a b
  unfold PyDate.le
  omega

instance PyDate.leTrans : IsTrans PyDate PyDate.le := by
  constructor
  intro a b c hab hbc
  unfold PyDate.le at *
  omega

/-- Python leap-year rule (`calendar.isleap`). -/
def isLeapYear (y : ℕ) : Bool := (y % 4 == 0 && y % 100 != 0) || y % 400 == 0

/-- Days in a month, for validating parsed dates as `strptime` does. -/
def daysInMonth (y m : ℕ) : ℕ :=
  if m = 2 then (if isLeapYear y then 29 else 28)
  else if m = 4 ∨ m = 6 ∨ m = 9 ∨ m = 11 then 30
  else 31

/-! ## Python string primitives, on `List Char` -/

/-- Python `str.split(sep)` for a one-character separator. -/
def splitOnCharAux (sep : Char) : List Char → List Char → List (List Char)
  | [], acc => [acc.reverse]
  | c :: cs, acc =>
    if c = sep then acc.reverse :: splitOnCharAux sep cs []
    else splitOnCharAux sep cs (c :: acc)

/-- Python `str.split(sep)`: `"".split(sep) = [""]`, separators at the ends
produce empty pieces. -/
def splitOnChar (sep : Char) (l : List Char) : List (List Char) :=
  splitOnCharAux sep l []

/-- ASCII whitespace stripped by Python `str.strip()`. -/
def isPySpace (c : Char) : Bool :=
  c = ' ' || c = '\t' || c = '\n' || c = '\r' || c = '\x0b' || c = '\x0c'

/-- Python `str.strip()`. -/
def pyStrip (l : List Char) : List Char :=
  ((l.dropWhile isPySpace).reverse.dropWhile isPySpace).reverse

/-- Value of a decimal digit character. -/
def digitVal (c : Char) : ℕ := c.toNat - 48

/-- Value of a most-significant-first decimal digit string. -/
def natOfDigits (l : List Char) : ℕ := l.foldl (fun a c => a * 10 + digitVal c) 0

/-- Model of Python `int(s)` restricted to nonnegative decimal digit strings
(the only integers the source parses this way are user ids it printed
itself). -/
def pyParseNat (l : List Char) : Option ℕ :=
  if l.isEmpty then none
  else if l.all Char.isDigit then some (natOfDigits l) else none

/-- Model of Python `float(s)` restricted to plain decimal literals with an
optional sign (scientific notation, `inf`/`nan`, and `_` separators are not
produced by the workloads this spec discusses). -/
def pyParseFloat (l : List Char) : Option ℚ :=
  let (neg, body) :=
    match l with
    | '-' :: rest => (true, rest)
    | '+' :: rest => (false, rest)
    | _ => (false, l)
  let signed : ℤ → ℤ := fun n => if neg then -n else n
  match splitOnChar '.' body with
  | [ip] =>
    if ip.isEmpty then none
    else if ip.all Char.isDigit then some (Rat.divInt (signed (natOfDigits ip)) 1)
    else none
  | [ip, fp] =>
    if ip.isEmpty && fp.isEmpty then none
    else if ip.all Char.isDigit && fp.all Char.isDigit then
      some (Rat.divInt (signed (natOfDigits ip * 10 ^ fp.length + natOfDigits fp))
        (10 ^ fp.length))
    else none
  | _ => none

/-- Decimal digits of `n`, least significant first; `fuel` bounds recursion
and any `fuel > n` gives the true digits. -/
def natDigitsRev : ℕ → ℕ → List Char
  | 0, _ => []
  | fuel + 1, n =>
    if n < 10 then [Nat.digitChar n]
    else Nat.digitChar (n % 10) :: natDigitsRev fuel (n / 10)

/-- Decimal digit string of `n`, most significant first: Python `str(n)` for
a nonnegative integer. -/
def natLit (n : ℕ) : List Char := (natDigitsRev (n + 1) n).reverse

/-- Left-pad with `'0'` to width `w` (`%04d` / `%02d` in `str(date)`). -/
def padZeros (w : ℕ) (l : List Char) : List Char :=
  List.replicate (w - l.length) '0' ++ l

/-- Python `str(d)` for a `datetime.date`: zero-padded ISO `YYYY-MM-DD`. -/
def PyDate.isoChars (d : PyDate) : List Char :=
  padZeros 4 (natLit d.year) ++ ['-'] ++ padZeros 2 (natLit d.month) ++ ['-'] ++
    padZeros 2 (natLit d.day)

/-- Insert a comma after every third digit; the input is least significant
first and the output is reversed back by the caller. -/
def commaRev : List Char → ℕ → List Char
  | [], _ => []
  | [c], _ => [c]
  | c :: cs, k =>
    if k = 2 then c :: ',' :: commaRev cs 0
    else c :: commaRev cs (k + 1)

/-- Comma thousands grouping of a digit string (the `,` format option). -/
def groupThousands (l : List Char) : List Char := (commaRev l.reverse 0).reverse

/-- Python `f"{q:,.1f}"`: one decimal digit, comma thousands separators.
Rounding of the scaled value is half-to-even; a negative value that rounds
to zero still carries the sign, as in Python. -/
def formatFixed1 (q : ℚ) : List Char :=
  let n : ℤ := pyRoundInt (qscale q 1)
  let sign : List Char := if n < 0 || (n == 0 && q.num < 0) then ['-'] else []
  let a : ℕ := n.natAbs
  sign ++ groupThousands (natLit (a / 10)) ++ ['.'] ++ natLit (a % 10)

/-- Python `f"{q:,.0f}"`: no decimals, comma thousands separators. -/
def formatFixed0 (q : ℚ) : List Char :=
  let n : ℤ := pyRoundInt (qscale q 0)
  let sign : List Char := if n < 0 || (n == 0 && q.num < 0) then ['-'] else []
  sign ++ groupThousands (natLit n.natAbs)

/-! ## Errors (`error.py`, and the `HTTPException`s raised by `Service`) -/

/-- Structured stand-in for the parse-error messages raised as
`WeightLogError` by `entry.py`; each constructor records exactly the data
interpolated into the corresponding message string. -/
inductive WLError
  | noHeader
  | headerColCount (found : ℕ)
  | headerName (column_no : ℕ) (expected actual : String)
  | lineColCount (line_no found : ℕ)
  | dateParse (value : String) (line_no : ℕ)
  | weightParse (value : String) (line_no : ℕ)
  | unitsParse (value : String) (line_no : ℕ)
deriving DecidableEq, Repr

/-- Line number named by a CSV parse error, when the error is about a data
line (header errors carry none). -/
def WLError.lineNo? : WLError → Option ℕ
  | .lineColCount n _ => some n
  | .dateParse _ n => some n
  | .weightParse _ n => some n
  | .unitsParse _ n => some n
  | _ => none

/-- HTTP status classifications used by the service layer. -/
inductive HStatus
  | badRequest
  | unauthorized
  | internalServerError
deriving DecidableEq, Repr

/-- Structured stand-in for the `detail` strings of the `HTTPException`s and
`WeightLogError`s the service raises. -/
inductive SvcDetail
  | duplicateDate (date : PyDate)
  | entryNotFound (id : Option ℕ)
  | dateNotFound (date : PyDate)
  | csvDecode
  | csvParse (e : WLError)
  | saveFailed
  | credentials
  | usernameTooLong
  | passwordEmpty
  | userExists (username : String)
deriving DecidableEq, Repr

/-- An error surfaced to the caller: status classification plus detail. -/
structure SvcError where
  status : HStatus
  detail : SvcDetail
deriving DecidableEq, Repr

/-- The single generic authentication failure
(`UserManager.create_credentials_error`): HTTP 401 with detail
"Could not validate credentials". -/
def credentials_error : SvcError := ⟨.unauthorized, .credentials⟩

/-! ## Entry model and CSV (de)serialization (`entry.py`) -/

/-- Persisted row of the `entries` table (`WeightLogEntryRow`). -/
structure WeightLogEntryRow where
  id : ℕ
  user_id : ℕ
  date : PyDate
  weight : ℚ
  metric : Bool
deriving DecidableEq, Repr

/-- Transport-facing weight log entry (`WeightLogEntry`). -/
structure WeightLogEntry where
  id : Option ℕ
  user_id : ℕ
  date : PyDate
  weight : ℚ
  is_metric : Bool
deriving DecidableEq, Repr

/-- CSV header line (`WeightLogEntry.create_csv_header`). -/
def create_csv_header : String := "Date, Weight, Units"

/-- CSV rendering of one entry (`WeightLogEntry.format_as_csv`): ISO date,
weight with comma separators and one decimal (metric) or none (imperial),
units name. -/
def WeightLogEntry.format_as_csv (e : WeightLogEntry) : String :=
  String.mk (e.date.isoChars ++ [',', ' '] ++
    (if e.is_metric then formatFixed1 e.weight else formatFixed0 e.weight) ++
    [',', ' '] ++ (determine_units_name e.is_metric).data)

/-- Conversion applied when loading a row for a user (`create_entry_from_row`):
convert only when the stored unit differs from the requested one. -/
def create_entry_from_row (row : WeightLogEntryRow) (metric : Bool) : WeightLogEntry :=
  let weight :=
    if metric ≠ row.metric then
      (if metric then convert_to_metric row.weight else convert_to_english row.weight)
    else row.weight
  { id := some row.id, user_id := row.user_id, date := row.date,
    weight := weight, is_metric := metric }

/-- Row created from an entry (`create_row_from_entry`); the id is generated
by the database (`Identity`), passed in here by the caller. -/
def create_row_from_entry (entry : WeightLogEntry) (genId : ℕ) : WeightLogEntryRow :=
  { id := genId, user_id := entry.user_id, date := entry.date,
    weight := entry.weight, metric := entry.is_metric }

/-- Header check loop of `parse_csv_header`: compare each stripped header
cell against the expected name, reporting the 1-based column of the first
mismatch. -/
def check_header_cells : ℕ → List (String × List Char) → Option WLError
  | _, [] => none
  | column_no, (expected, actual) :: rest =>
    if String.mk (pyStrip actual) = expected then check_header_cells (column_no + 1) rest
    else some (.headerName column_no expected (String.mk (pyStrip actual)))

/-- Parse and remove the CSV header (`parse_csv_header`): the first line must
strip to a nonempty string that splits on `','` into three cells whose
stripped values are `Date`, `Weight`, `Units`; returns the remaining lines. -/
def parse_csv_header (csv : String) : Except WLError (List (List Char)) :=
  let lines := splitOnChar '\n' csv.data
  let header_line := pyStrip (lines.headD [])
  if header_line.isEmpty then .error .noHeader
  else
    let headers := splitOnChar ',' header_line
    if headers.length ≠ 3 then .error (.headerColCount headers.length)
    else
      match check_header_cells 1 (List.zip ["Date", "Weight", "Units"] headers) with
      | some e => .error e
      | none => .ok lines.tail

/-- Parse an ISO `YYYY-MM-DD` date (`parse_csv_date`, i.e.
`strptime(value.strip(), "%Y-%m-%d")`): 1-4 year digits, 1-2 month and day
digits, month 1-12 and day valid for the month. -/
def parse_csv_date (value : List Char) (line_no : ℕ) : Except WLError PyDate :=
  match splitOnChar '-' (pyStrip value) with
  | [ys, ms, ds] =>
    if ys.isEmpty || ms.isEmpty || ds.isEmpty then
      .error (.dateParse (String.mk value) line_no)
    else if !(ys.all Char.isDigit && ms.all Char.isDigit && ds.all Char.isDigit) then
      .error (.dateParse (String.mk value) line_no)
    else if ys.length > 4 || ms.length > 2 || ds.length > 2 then
      .error (.dateParse (String.mk value) line_no)
    else if 1 ≤ natOfDigits ys ∧ 1 ≤ natOfDigits ms ∧ natOfDigits ms ≤ 12 ∧
        1 ≤ natOfDigits ds ∧
        natOfDigits ds ≤ daysInMonth (natOfDigits ys) (natOfDigits ms) then
      .ok ⟨natOfDigits ys, natOfDigits ms, natOfDigits ds⟩
    else .error (.dateParse (String.mk value) line_no)
  | _ => .error (.dateParse (String.mk value) line_no)

/-- Parse a weight (`parse_csv_weight`, i.e. `float(value.strip())`). -/
def parse_csv_weight (value : List Char) (line_no : ℕ) : Except WLError ℚ :=
  match pyParseFloat (pyStrip value) with
  | some q => .ok q
  | none => .error (.weightParse (String.mk value) line_no)

/-- Parse a units cell (`parse_csv_units`): exactly `kg` or `lb` after
stripping. -/
def parse_csv_units (value : List Char) (line_no : ℕ) : Except WLError Bool :=
  let v := pyStrip value
  if String.mk v = "kg" then .ok true
  else if String.mk v = "lb" then .ok false
  else .error (.unitsParse (String.mk v) line_no)

/-- Parse one data line of `create_entries_from_csv`: blank lines are
skipped (`none`), otherwise the line must have exactly three cells. -/
def parse_csv_line (user_id : ℕ) (line_no : ℕ) (raw : List Char) :
    Except WLError (Option WeightLogEntry) :=
  if (pyStrip raw).isEmpty then .ok none
  else
    match splitOnChar ',' (pyStrip raw) with
    | [v0, v1, v2] =>
      match parse_csv_date v0 line_no with
      | .error e => .error e
      | .ok date =>
        match parse_csv_weight v1 line_no with
        | .error e => .error e
        | .ok weight =>
          match parse_csv_units v2 line_no with
          | .error e => .error e
          | .ok is_metric =>
            .ok (some { id := none, user_id := user_id, date := date,
                        weight := weight, is_metric := is_metric })
    | values => .error (.lineColCount line_no values.length)

/-- Loop of `create_entries_from_csv` over the data lines; `line_no` is the
1-based file line of the current list head (the first data line is line 2). -/
def parse_csv_body (user_id : ℕ) : ℕ → List (List Char) → Except WLError (List WeightLogEntry)
  | _, [] => .ok []
  | line_no, l :: rest =>
    match parse_csv_line user_id line_no l with
    | .error e => .error e
    | .ok none => parse_csv_body user_id (line_no + 1) rest
    | .ok (some entry) =>
      match parse_csv_body user_id (line_no + 1) rest with
      | .error e => .error e
      | .ok entries => .ok (entry :: entries)

/-- Parse a whole CSV file into entries (`create_entries_from_csv`). -/
def create_entries_from_csv (user_id : ℕ) (csv : String) :
    Except WLError (List WeightLogEntry) :=
  match parse_csv_header csv with
  | .error e => .error e
  | .ok lines => parse_csv_body user_id 2 lines

/-! ## Users and authentication (`user.py`) -/

/-- Persisted row of the `users` table (`UserRow`); `password` holds the
argon2 hash. -/
structure UserRow where
  id : ℕ
  username : String
  metric : Bool
  goal_weight : ℚ
  password : String
deriving DecidableEq, Repr

/-- Transport-facing user (`User`). -/
structure User where
  id : ℕ
  username : String
  metric : Bool
  units_name : String
  goal_weight : ℚ
  password : String
deriving DecidableEq, Repr

/-- Build a `User` from a `UserRow` (`create_user_from_row`, including the
`determine_units_name` call). -/
def create_user_from_row (row : UserRow) : User :=
  { id := row.id, username := row.username, metric := row.metric,
    units_name := determine_units_name row.metric,
    goal_weight := row.goal_weight, password := row.password }

/-- The `users` table with its id generator (`Identity(start=100)`). -/
structure UsersTable where
  rows : List UserRow
  nextId : ℕ
deriving DecidableEq, Repr

/-- Signed JWT as produced by `jose.jwt.encode`: the claims of the payload
dict plus the key it was signed with (decoding under any other key fails
signature verification). -/
structure Jwt where
  sub : Option (List Char)
  exp : ℤ
  key : String
deriving DecidableEq, Repr

/-- Bearer token wrapper (`token.py`). -/
structure Token where
  token : Jwt
deriving DecidableEq, Repr

/-- Outcome of `jose.jwt.decode`: wrong key fails signature verification
(`JWTError`); an `exp` claim in the past fails with `ExpiredSignatureError`. -/
inductive JwtDecodeError
  | expired
  | invalid
deriving DecidableEq, Repr

/-- Model of `jose.jwt.decode(token, key, algorithms=["HS256"])`. -/
def jwt_decode (tok : Jwt) (key : String) (now : ℤ) :
    Except JwtDecodeError (Option (List Char) × ℤ) :=
  if tok.key ≠ key then .error .invalid
  else if tok.exp < now then .error .expired
  else .ok (tok.sub, tok.exp)

/-- Token lifetime: `ACCESS_TOKEN_EXPIRE_HOURS = 24`, in seconds. -/
def ACCESS_TOKEN_EXPIRE_SECONDS : ℤ := 24 * 3600

/-- Find a user row by username (`get_user_from_username`): first matching
row, `none` when absent. -/
def get_user_from_username (udb : UsersTable) (username : String) : Option User :=
  (udb.rows.find? (fun r => r.username == username)).map create_user_from_row

/-- Find a user row by id (`get_user_from_id`). -/
def get_user_from_id (udb : UsersTable) (user_id : ℕ) : Option User :=
  (udb.rows.find? (fun r => r.id == user_id)).map create_user_from_row

/-- Password check (`authenticate_user`, i.e. `crypt_context.verify`):
verification succeeds exactly when the stored hash is the hash of the
offered password.  `hashF` is the argon2 hash function, a parameter of the
model. -/
def authenticate_user (hashF : String → String) (user : User) (password : String) : Bool :=
  user.password == hashF password

/-- Issue a login token (`create_access_token`): resolve the username,
verify the password, and sign `{"sub": str(user.id), "exp": now + 24h}`;
both failure modes raise the generic credentials error. -/
def create_access_token (hashF : String → String) (udb : UsersTable) (key : String)
    (now : ℤ) (username password : String) : Except SvcError Token :=
  match get_user_from_username udb username with
  | none => .error credentials_error
  | some user =>
    if !authenticate_user hashF user password then .error credentials_error
    else .ok ⟨{ sub := some (natLit user.id), exp := now + ACCESS_TOKEN_EXPIRE_SECONDS,
                key := key }⟩

/-- Resolve a bearer token to a user (`get_user_from_token`): decode and
verify, read the `sub` claim, parse it as an integer id, and look the user
up; every failure mode raises the same generic credentials error. -/
def get_user_from_token (udb : UsersTable) (key : String) (now : ℤ) (tok : Jwt) :
    Except SvcError User :=
  match jwt_decode tok key now with
  | .error _ => .error credentials_error
  | .ok (sub?, _) =>
    match sub? with
    | none => .error credentials_error
    | some s =>
      match pyParseNat s with
      | none => .error credentials_error
      | some user_id =>
        match get_user_from_id udb user_id with
        | none => .error credentials_error
        | some user => .ok user

/-- Username length limit (`USERNAME_MAX_LEN`). -/
def USERNAME_MAX_LEN : ℕ := 32

/-- Add a user (`UserManager.add_user`): four separate arguments; checks the
username length, rejects an empty password (`check_and_hash_password`),
hashes the password, and inserts, surfacing the uniqueness violation as a
domain error. -/
def UserManager.add_user (hashF : String → String) (udb : UsersTable)
    (username : String) (metric : Bool) (goal_weight : ℚ) (password : String) :
    Except SvcError UsersTable :=
  if username.length > USERNAME_MAX_LEN then .error ⟨.internalServerError, .usernameTooLong⟩
  else if password.length = 0 then .error ⟨.internalServerError, .passwordEmpty⟩
  else if udb.rows.any (fun r => r.username == username) then
    .error ⟨.internalServerError, .userExists username⟩
  else
    .ok { rows := udb.rows ++
            [{ id := udb.nextId, username := username, metric := metric,
               goal_weight := goal_weight, password := hashF password }],
          nextId := udb.nextId + 1 }

/-! ## Service entry operations (`service/__init__.py`) -/

/-- The `entries` table with its id generator (`Identity(start=100)`). -/
structure EntriesTable where
  rows : List WeightLogEntryRow
  nextId : ℕ
deriving DecidableEq, Repr

/-- Date order lifted to entry rows, for the `order_by(date)` query. -/
def entryRowLe (a b : WeightLogEntryRow) : Prop := PyDate.le a.date b.date

instance entryRowLe.dec : DecidableRel entryRowLe := fun a b =>
  PyDate.decLe a.date b.date

instance entryRowLe.total : IsTotal WeightLogEntryRow entryRowLe :=
  ⟨fun a b => IsTotal.total (r := PyDate.le) a.date b.date⟩

instance entryRowLe.trans : IsTrans WeightLogEntryRow entryRowLe :=
  ⟨fun _ _ _ hab hbc => IsTrans.trans (r := PyDate.le) _ _ _ hab hbc⟩

/-- Shared row lookup (`Service.query_for_entry_by_user_and_date`): first
row with the given user id and date. -/
def query_for_entry_by_user_and_date (rows : List WeightLogEntryRow)
    (user_id : ℕ) (entry_date : PyDate) : Option WeightLogEntryRow :=
  rows.find? (fun r => r.user_id == user_id && r.date == entry_date)

/-- All entries of a user sorted by date, in the user's preferred unit
(`Service.get_entries`). -/
def Service.get_entries (db : EntriesTable) (user : User) : List WeightLogEntry :=
  ((db.rows.filter (fun r => r.user_id == user.id)).insertionSort entryRowLe).map
    (fun r => create_entry_from_row r user.metric)

/-- CSV export (`Service.get_entries_csv`): header line, then one line per
entry. -/
def Service.get_entries_csv (db : EntriesTable) (user : User) : String :=
  create_csv_header ++ "\n" ++
    String.intercalate "\n" ((Service.get_entries db user).map WeightLogEntry.format_as_csv)

/-- Add one entry (`Service.add_entry`): round the weight to one decimal,
insert — the `(user, date)` uniqueness constraint surfaces as an
`IntegrityError`, reported as a 400 duplicate error — and return the
generated id to the caller through the entry object. -/
def Service.add_entry (db : EntriesTable) (entry : WeightLogEntry) :
    Except SvcError (EntriesTable × WeightLogEntry) :=
  let entry := { entry with weight := pyRound entry.weight 1 }
  if (query_for_entry_by_user_and_date db.rows entry.user_id entry.date).isSome then
    .error ⟨.badRequest, .duplicateDate entry.date⟩
  else
    let row := create_row_from_entry entry db.nextId
    .ok ({ rows := db.rows ++ [row], nextId := db.nextId + 1 },
         { entry with id := some row.id })

/-- Replace the first row satisfying `p` by `f` of it. -/
def replaceFirstRow (rows : List WeightLogEntryRow) (p : WeightLogEntryRow → Bool)
    (f : WeightLogEntryRow → WeightLogEntryRow) : List WeightLogEntryRow :=
  match rows with
  | [] => []
  | r :: rest => if p r then f r :: rest else r :: replaceFirstRow rest p f

/-- Remove the first row satisfying `p`. -/
def removeFirstRow (rows : List WeightLogEntryRow) (p : WeightLogEntryRow → Bool) :
    List WeightLogEntryRow :=
  match rows with
  | [] => []
  | r :: rest => if p r then rest else r :: removeFirstRow rest p

/-- One iteration of the CSV-import save loop of
`Service.add_entries_from_csv`: insert a new row, update an existing row
only when weight or unit differs, otherwise skip. -/
def upsert_entry (db : EntriesTable) (entry : WeightLogEntry) : EntriesTable :=
  match query_for_entry_by_user_and_date db.rows entry.user_id entry.date with
  | none =>
    { rows := db.rows ++ [create_row_from_entry entry db.nextId], nextId := db.nextId + 1 }
  | some row =>
    if row.weight ≠ entry.weight ∨ row.metric ≠ entry.is_metric then
      let rows' := replaceFirstRow db.rows
        (fun r => r.user_id == entry.user_id && r.date == entry.date)
        (fun r => { r with weight := entry.weight, metric := entry.is_metric })
      { db with rows := rows' }
    else db

/-- Save loop of `Service.add_entries_from_csv`, inside one
`Session.begin()` transaction; `failAt` injects a `SQLAlchemyError` before
the entry at that loop index (0-based), modelling a database failure
partway through the file.  On `.error` the transaction rolls back and the
stored table is unchanged. -/
def persist_entries (failAt : Option ℕ) : ℕ → EntriesTable → List WeightLogEntry →
    Except SvcError EntriesTable
  | _, db, [] => .ok db
  | i, db, entry :: rest =>
    if failAt = some i then .error ⟨.internalServerError, .saveFailed⟩
    else persist_entries failAt (i + 1) (upsert_entry db entry) rest

/-- CSV import (`Service.add_entries_from_csv`): parse the whole file first
(any parse failure aborts before the save transaction starts), then save
all parsed entries in a single transaction. -/
def Service.add_entries_from_csv (failAt : Option ℕ) (db : EntriesTable)
    (user_id : ℕ) (csv : String) : Except SvcError EntriesTable :=
  match create_entries_from_csv user_id csv with
  | .error e => .error ⟨.internalServerError, .csvParse e⟩
  | .ok entries => persist_entries failAt 0 db entries

/-- Stored table after an operation: the new table on commit, the old table
on error (the `Session.begin()` block rolled back). -/
def result_table (db : EntriesTable) (r : Except SvcError EntriesTable) : EntriesTable :=
  match r with
  | .ok db' => db'
  | .error _ => db

/-- Update an entry by id (`Service.update_entry`): fails with a 400
"Entry ... not found." when no row has the id; otherwise rewrites date,
weight and unit flag, surfacing a uniqueness violation on the new date as a
400 duplicate error. -/
def Service.update_entry (db : EntriesTable) (entry : WeightLogEntry) :
    Except SvcError EntriesTable :=
  match db.rows.find? (fun r => entry.id == some r.id) with
  | none => .error ⟨.badRequest, .entryNotFound entry.id⟩
  | some row =>
    let rewrite := fun (r : WeightLogEntryRow) =>
      { r with date := entry.date, weight := entry.weight, metric := entry.is_metric }
    let rows := replaceFirstRow db.rows (fun r => entry.id == some r.id) rewrite
    let conflict := fun (r : WeightLogEntryRow) =>
      r.id ≠ row.id && r.user_id == row.user_id && r.date == entry.date
    if db.rows.any conflict then
      .error ⟨.badRequest, .duplicateDate entry.date⟩
    else .ok { db with rows := rows }

/-- Delete an entry by user and date (`Service.delete_entry`): fails with a
400 "Date ... not found." when no row matches. -/
def Service.delete_entry (db : EntriesTable) (user_id : ℕ) (entry_date : PyDate) :
    Except SvcError EntriesTable :=
  match query_for_entry_by_user_and_date db.rows user_id entry_date with
  | none => .error ⟨.badRequest, .dateNotFound entry_date⟩
  | some _ =>
    let rows' := removeFirstRow db.rows
      (fun r => r.user_id == user_id && r.date == entry_date)
    .ok { db with rows := rows' }

/-! ## The service-layer `add_user` calling convention (`Service.add_user`) -/

/-- Python value passed as a positional argument. -/
inductive PyValue
  | vUser (u : User)
  | vStr (s : String)
  | vBool (b : Bool)
  | vRat (q : ℚ)
deriving DecidableEq

/-- Outcome of a Python call that may raise `WeightLogError` or
`TypeError`. -/
inductive PyResult (α : Type)
  | ok (a : α)
  | wlErr (e : SvcError)
  | typeError
deriving DecidableEq

/-- Python call model of the bound method `UserManager.add_user`: it takes
exactly four positional arguments `(username, metric, goal_weight,
password)`; a call that does not supply them raises `TypeError` before the
body runs. -/
def UserManager.add_user_call (hashF : String → String) (udb : UsersTable)
    (args : List PyValue) : PyResult UsersTable :=
  match args with
  | [.vStr username, .vBool metric, .vRat goal_weight, .vStr password] =>
    match UserManager.add_user hashF udb username metric goal_weight password with
    | .ok udb' => .ok udb'
    | .error e => .wlErr e
  | _ => .typeError

/-- Service-layer user creation (`Service.add_user`): the source passes the
single `User` object as the only positional argument of
`UserManager.add_user`; its `try`/`except WeightLogError` does not catch
`TypeError`. -/
def Service.add_user (hashF : String → String) (udb : UsersTable) (new_user : User) :
    PyResult UsersTable :=
  UserManager.add_user_call hashF udb [.vUser new_user]

/-- Value of a least-significant-first digit list. -/
def revVal : List Char → ℕ
  | [] => 0
  | c :: cs => digitVal c + 10 * revVal cs

/-- Whether `parse_csv_header` accepts the file. -/
def headerAccepted (csv : String) : Bool :=
  match parse_csv_header csv with
  | .ok _ => true
  | .error _ => false

/-- First line of a CSV file, as the source splits it. -/
def first_line (csv : String) : String :=
  String.mk ((splitOnChar '\n' csv.data).headD [])

/-- Rows created, in order, by inserting entries with ids generated from
`k` on. -/
def buildRows : ℕ → List WeightLogEntry → List WeightLogEntryRow
  | _, [] => []
  | k, e :: es => create_row_from_entry e k :: buildRows (k + 1) es

/-- Observable content of an entry: date, weight, unit flag. -/
def entryProj (e : WeightLogEntry) : PyDate × ℚ × Bool := (e.date, e.weight, e.is_metric)

/-- Expected observable content of an imported entry when read back for a
user with unit preference `metric`: the date unchanged and the weight
converted exactly when the imported unit differs from the preference. -/
def projForUser (metric : Bool) (e : WeightLogEntry) : PyDate × ℚ × Bool :=
  (e.date,
   if metric = e.is_metric then e.weight
   else (if metric then convert_to_metric e.weight else convert_to_english e.weight),
   metric)

/-! ## Helper lemmas -/

theorem qscale_eq (q : ℚ) (n : ℕ) : qscale q n = q * 10 ^ n := by
  rw [qscale, Rat.divInt_eq_div]
  push_cast
  rw [mul_div_right_comm, Rat.num_div_den]

theorem pyRound_eq (q : ℚ) (n : ℕ) :
    pyRound q n = (pyRoundInt (q * 10 ^ n) : ℚ) / 10 ^ n := by
  rw [pyRound, Rat.divInt_eq_div, qscale_eq]
  push_cast
  ring

theorem qmul_eq (a b : ℚ) : qmul a b = a * b := by
  rw [qmul, Rat.divInt_eq_div]
  push_cast
  rw [← div_mul_div_comm, Rat.num_div_den, Rat.num_div_den]

theorem qdiv_eq (a b : ℚ) : qdiv a b = a / b := by
  rw [qdiv, Rat.divInt_eq_div]
  push_cast
  rw [← div_mul_div_comm, Rat.num_div_den, ← mul_div_assoc, ← div_div_eq_mul_div,
    Rat.num_div_den]

theorem KG_PER_LB_eq : KG_PER_LB = 45359237 / 100000000 := by
  rw [KG_PER_LB, Rat.divInt_eq_div]
  norm_num


theorem query_isSome_iff (rows : List WeightLogEntryRow) (uid : ℕ) (d : PyDate) :
    (query_for_entry_by_user_and_date rows uid d).isSome ↔
      ∃ r ∈ rows, r.user_id = uid ∧ r.date = d := by
  simp [query_for_entry_by_user_and_date, List.find?_isSome]

theorem query_eq_none_iff (rows : List WeightLogEntryRow) (uid : ℕ) (d : PyDate) :
    query_for_entry_by_user_and_date rows uid d = none ↔
      ∀ r ∈ rows, ¬(r.user_id = uid ∧ r.date = d) := by
  simp [query_for_entry_by_user_and_date, List.find?_eq_none]


theorem digitChar_isDigit {d : ℕ} (h : d < 10) : (Nat.digitChar d).isDigit = true := by
  interval_cases d <;> decide

theorem digitVal_digitChar {d : ℕ} (h : d < 10) : digitVal (Nat.digitChar d) = d := by
  interval_cases d <;> decide

theorem natDigitsRev_spec : ∀ fuel n, n < fuel →
    natDigitsRev fuel n ≠ [] ∧ (natDigitsRev fuel n).all Char.isDigit = true ∧
      revVal (natDigitsRev fuel n) = n := by
  intro fuel
  induction fuel with
  | zero => intro n h; omega
  | succ fuel ih =>
    intro n h
    by_cases h10 : n < 10
    · simp [natDigitsRev, h10, revVal, digitChar_isDigit h10, digitVal_digitChar h10]
    · have hrec := ih (n / 10) (by omega)
      simp only [natDigitsRev, if_neg h10]
      refine ⟨by simp, ?_, ?_⟩
      · simp [digitChar_isDigit (Nat.mod_lt n (by omega)), hrec.2.1]
      · simp [revVal, digitVal_digitChar (Nat.mod_lt n (by omega)), hrec.2.2]
        omega

theorem natOfDigits_reverse : ∀ l : List Char, natOfDigits l.reverse = revVal l := by
  intro l
  induction l with
  | nil => rfl
  | cons c cs ih =>
    simp only [List.reverse_cons, natOfDigits, List.foldl_append, List.foldl_cons,
      List.foldl_nil]
    rw [show (List.foldl (fun a c => a * 10 + digitVal c) 0 cs.reverse) = revVal cs from ih]
    simp [revVal]
    ring

/-- Python `int(str(n)) = n` for nonnegative `n`: the subject claim written
by `create_access_token` parses back to the same user id. -/
theorem pyParseNat_natLit (n : ℕ) : pyParseNat (natLit n) = some n := by
  obtain ⟨hne, hdig, hval⟩ := natDigitsRev_spec (n + 1) n (by omega)
  have hne' : (natDigitsRev (n + 1) n).reverse ≠ [] := by simpa using hne
  rw [pyParseNat, natLit]
  rw [if_neg (by simpa [List.isEmpty_iff] using hne')]
  rw [if_pos (by simpa using hdig)]
  rw [natOfDigits_reverse, hval]

/-! ## Theorems for the claims -/

theorem add_entry_def (db : EntriesTable) (e : WeightLogEntry) :
    Service.add_entry db e =
      if (query_for_entry_by_user_and_date db.rows e.user_id e.date).isSome then
        .error ⟨.badRequest, .duplicateDate e.date⟩
      else
        .ok ({ rows := db.rows ++
                 [create_row_from_entry { e with weight := pyRound e.weight 1 } db.nextId],
               nextId := db.nextId + 1 },
             { e with weight := pyRound e.weight 1, id := some db.nextId }) := rfl

/-- C4: the unit-conversion functions implement the asymmetric rounding
policy: `convert_to_metric lbs = round(lbs * 0.45359237, 1)` and
`convert_to_english kg = round(kg / 0.45359237, 0)`; in particular
`convert_to_metric 150 = 68.0` and `convert_to_english 68 = 150.0`. -/
theorem C4_unit_conversion_rounding :
    (∀ lbs : ℚ, convert_to_metric lbs = pyRound (lbs * (45359237 / 100000000)) 1) ∧
    (∀ kg : ℚ, convert_to_english kg = pyRound (kg / (45359237 / 100000000)) 0) ∧
    convert_to_metric 150 = 68 ∧ convert_to_english 68 = 150 := by
  refine ⟨fun lbs => ?_, fun kg => ?_, by decide, by decide⟩
  · rw [convert_to_metric, qmul_eq, KG_PER_LB_eq]
  · rw [convert_to_english, qdiv_eq, KG_PER_LB_eq]

/-- C3: `Service.add_entry` rounds the weight to one decimal before storing;
it fails with the 400 duplicate classification when an entry for the same
`(user, date)` exists, succeeds when no entry for that pair exists, and on
success returns the generated id through the entry object. -/
theorem C3_add_entry_spec (db : EntriesTable) (e : WeightLogEntry) :
    (∀ db' e', Service.add_entry db e = .ok (db', e') →
      e'.weight = pyRound e.weight 1 ∧ e'.id = some db.nextId ∧
      create_row_from_entry { e with weight := pyRound e.weight 1 } db.nextId ∈ db'.rows) ∧
    ((∃ r ∈ db.rows, r.user_id = e.user_id ∧ r.date = e.date) →
      Service.add_entry db e = .error ⟨.badRequest, .duplicateDate e.date⟩) ∧
    ((∀ r ∈ db.rows, ¬(r.user_id = e.user_id ∧ r.date = e.date)) →
      ∃ db' e', Service.add_entry db e = .ok (db', e')) := by
  rw [add_entry_def]
  by_cases hq : (query_for_entry_by_user_and_date db.rows e.user_id e.date).isSome
  · refine ⟨fun db' e' hok => by simp [hq] at hok, fun _ => by simp [hq], fun hnone => ?_⟩
    exact absurd ((query_isSome_iff db.rows e.user_id e.date).mp hq)
      (by simpa using hnone)
  · refine ⟨fun db' e' hok => ?_, fun hdup => ?_, fun _ => ?_⟩
    · simp only [hq, if_false] at hok
      obtain ⟨hdb, he⟩ := by simpa using hok
      subst hdb he
      refine ⟨rfl, rfl, ?_⟩
      simp
    · exact absurd ((query_isSome_iff db.rows e.user_id e.date).mpr hdup) hq
    · exact ⟨_, _, by rw [if_neg hq]⟩

/-- C3 witness: a concrete successful add into an empty table, and a
concrete duplicate rejection. -/
theorem C3_add_entry_spec_witness :
    (∃ db' e',
      Service.add_entry ⟨[], 100⟩
        ⟨none, 1, ⟨2022, 3, 22⟩, 123, false⟩ = .ok (db', e')) ∧
    Service.add_entry ⟨[⟨100, 1, ⟨2022, 3, 22⟩, 123, false⟩], 101⟩
        ⟨none, 1, ⟨2022, 3, 22⟩, 120, false⟩ =
      .error ⟨.badRequest, .duplicateDate ⟨2022, 3, 22⟩⟩ := by
  constructor
  · exact (C3_add_entry_spec ⟨[], 100⟩ _).2.2 (by simp)
  · exact (C3_add_entry_spec _ _).2.1 ⟨⟨100, 1, ⟨2022, 3, 22⟩, 123, false⟩, by simp, rfl, rfl⟩

/-- C7: updating an entry whose id does not exist, and deleting an entry
whose `(user id, date)` does not exist, both fail with the not-found
classification, do not silently succeed, and leave the stored entries
unchanged. -/
theorem C7_update_delete_not_found (db : EntriesTable) (e : WeightLogEntry)
    (uid : ℕ) (d : PyDate) :
    ((∀ r ∈ db.rows, e.id ≠ some r.id) →
      Service.update_entry db e = .error ⟨.badRequest, .entryNotFound e.id⟩ ∧
      result_table db (Service.update_entry db e) = db) ∧
    ((∀ r ∈ db.rows, ¬(r.user_id = uid ∧ r.date = d)) →
      Service.delete_entry db uid d = .error ⟨.badRequest, .dateNotFound d⟩ ∧
      result_table db (Service.delete_entry db uid d) = db) := by
  constructor
  · intro h
    have hf : db.rows.find? (fun r => e.id == some r.id) = none := by
      rw [List.find?_eq_none]
      intro r hr
      simpa using h r hr
    constructor
    · simp [Service.update_entry, hf]
    · simp [result_table, Service.update_entry, hf]
  · intro h
    have hf : query_for_entry_by_user_and_date db.rows uid d = none := by
      rw [query_eq_none_iff]
      exact h
    constructor
    · simp [Service.delete_entry, hf]
    · simp [result_table, Service.delete_entry, hf]

/-- C7 witness: a concrete unknown-id update and unknown-date delete
against a one-row table. -/
theorem C7_update_delete_not_found_witness :
    (Service.update_entry ⟨[⟨100, 1, ⟨2022, 3, 22⟩, 123, false⟩], 101⟩
        ⟨some 5, 1, ⟨2022, 3, 23⟩, 120, false⟩ =
      .error ⟨.badRequest, .entryNotFound (some 5)⟩) ∧
    (Service.delete_entry ⟨[⟨100, 1, ⟨2022, 3, 22⟩, 123, false⟩], 101⟩ 1 ⟨2022, 3, 23⟩ =
      .error ⟨.badRequest, .dateNotFound ⟨2022, 3, 23⟩⟩) := by
  constructor
  · exact ((C7_update_delete_not_found _ ⟨some 5, 1, ⟨2022, 3, 23⟩, 120, false⟩ 1
      ⟨2022, 3, 23⟩).1 (by decide)).1
  · exact ((C7_update_delete_not_found _ ⟨some 5, 1, ⟨2022, 3, 23⟩, 120, false⟩ 1
      ⟨2022, 3, 23⟩).2 (by decide)).1

/-- C9: for every `User` argument, the service layer's `add_user` raises
`TypeError` — it passes one `User` object where `UserManager.add_user`
requires four positional arguments — and so never creates a user, while a
direct four-argument call to `UserManager.add_user` can succeed. -/
theorem C9_service_add_user_type_error :
    (∀ (hashF : String → String) (udb : UsersTable) (u : User),
      Service.add_user hashF udb u = .typeError) ∧
    (∃ udb', UserManager.add_user id ⟨[], 100⟩ "Betty" false 68 "boop de doop" = .ok udb') := by
  exact ⟨fun hashF udb u => rfl, ⟨_, rfl⟩⟩

/-- C2: a token issued by `create_access_token` from a user's username and
correct password, decoded immediately by `get_user_from_token`, resolves to
that user; and `get_user_from_token` fails with the same generic
credentials error (401, "Could not validate credentials") on every failure
mode — wrong signing key, expired token, missing subject claim, unparseable
subject, or unknown user id — with no distinction exposed to the caller. -/
theorem C2_token_auth (udb : UsersTable) (key : String) (now : ℤ) :
    (∀ (hashF : String → String) (username password : String) (U : User) (t : Token),
      get_user_from_username udb username = some U →
      U.password = hashF password →
      get_user_from_id udb U.id = some U →
      create_access_token hashF udb key now username password = .ok t →
      get_user_from_token udb key now t.token = .ok U) ∧
    (∀ tok : Jwt, (∃ u, get_user_from_token udb key now tok = .ok u) ∨
      get_user_from_token udb key now tok = .error credentials_error) ∧
    (∀ tok : Jwt, tok.key ≠ key →
      get_user_from_token udb key now tok = .error credentials_error) ∧
    (∀ tok : Jwt, tok.key = key → tok.exp < now →
      get_user_from_token udb key now tok = .error credentials_error) ∧
    (∀ tok : Jwt, tok.key = key → ¬tok.exp < now → tok.sub = none →
      get_user_from_token udb key now tok = .error credentials_error) ∧
    (∀ (tok : Jwt) (s : List Char), tok.key = key → ¬tok.exp < now → tok.sub = some s →
      pyParseNat s = none →
      get_user_from_token udb key now tok = .error credentials_error) ∧
    (∀ (tok : Jwt) (s : List Char) (uid : ℕ), tok.key = key → ¬tok.exp < now →
      tok.sub = some s → pyParseNat s = some uid → get_user_from_id udb uid = none →
      get_user_from_token udb key now tok = .error credentials_error) := by
  refine ⟨?_, ?_, ?_, ?_, ?_, ?_, ?_⟩
  · intro hashF username password U t huser hpw hid htok
    have hauth : authenticate_user hashF U password = true := by
      simp [authenticate_user, hpw]
    rw [create_access_token, huser] at htok
    simp only [hauth, Bool.not_true, Bool.false_eq_true, if_false] at htok
    obtain rfl : Token.mk ⟨some (natLit U.id), now + ACCESS_TOKEN_EXPIRE_SECONDS, key⟩ = t := by
      simpa using htok
    have hexp : ¬(now + ACCESS_TOKEN_EXPIRE_SECONDS < now) := by
      rw [ACCESS_TOKEN_EXPIRE_SECONDS]
      omega
    rw [get_user_from_token, jwt_decode]
    rw [if_neg (by simp), if_neg hexp]
    simp only [pyParseNat_natLit, hid]
  · intro tok
    rcases hdec : jwt_decode tok key now with e | ⟨s?, x⟩
    · exact Or.inr (by rw [get_user_from_token, hdec])
    · rcases s? with _ | s
      · exact Or.inr (by rw [get_user_from_token, hdec])
      · rcases hparse : pyParseNat s with _ | uid
        · refine Or.inr ?_
          rw [get_user_from_token, hdec]
          simp only [hparse]
        · rcases hlook : get_user_from_id udb uid with _ | u
          · refine Or.inr ?_
            rw [get_user_from_token, hdec]
            simp only [hparse, hlook]
          · refine Or.inl ⟨u, ?_⟩
            rw [get_user_from_token, hdec]
            simp only [hparse, hlook]
  · intro tok hkey
    rw [get_user_from_token, jwt_decode, if_pos hkey]
  · intro tok hkey hexp
    rw [get_user_from_token, jwt_decode, if_neg (by simp [hkey]), if_pos hexp]
  · intro tok hkey hexp hsub
    rw [get_user_from_token, jwt_decode, if_neg (by simp [hkey]), if_neg hexp, hsub]
  · intro tok s hkey hexp hsub hparse
    rw [get_user_from_token, jwt_decode, if_neg (by simp [hkey]), if_neg hexp, hsub]
    simp only [hparse]
  · intro tok s uid hkey hexp hsub hparse hlook
    rw [get_user_from_token, jwt_decode, if_neg (by simp [hkey]), if_neg hexp, hsub]
    simp only [hparse, hlook]

/-- C2 witness: a concrete user's token round-trips to that user, and a
concrete token signed with a different key, and one expired, both fail with
the generic credentials error. -/
theorem C2_token_auth_witness :
    get_user_from_token ⟨[⟨100, "Betty", false, 68, "pw"⟩], 101⟩ "k" 5
      ⟨some (natLit 100), 5 + ACCESS_TOKEN_EXPIRE_SECONDS, "k"⟩ =
      .ok ⟨100, "Betty", false, "lb", 68, "pw"⟩ ∧
    get_user_from_token ⟨[⟨100, "Betty", false, 68, "pw"⟩], 101⟩ "k" 5
      ⟨some (natLit 100), 5 + ACCESS_TOKEN_EXPIRE_SECONDS, "other"⟩ =
      .error credentials_error ∧
    get_user_from_token ⟨[⟨100, "Betty", false, 68, "pw"⟩], 101⟩ "k" 5
      ⟨some (natLit 100), 4, "k"⟩ = .error credentials_error := by
  refine ⟨?_, ?_, ?_⟩
  · exact (C2_token_auth ⟨[⟨100, "Betty", false, 68, "pw"⟩], 101⟩ "k" 5).1 id "Betty" "pw"
      ⟨100, "Betty", false, "lb", 68, "pw"⟩
      ⟨⟨some (natLit 100), 5 + ACCESS_TOKEN_EXPIRE_SECONDS, "k"⟩⟩
      (by decide) rfl (by decide) rfl
  · exact (C2_token_auth ⟨[⟨100, "Betty", false, 68, "pw"⟩], 101⟩ "k" 5).2.2.1
      ⟨some (natLit 100), 5 + ACCESS_TOKEN_EXPIRE_SECONDS, "other"⟩ (by decide)
  · exact (C2_token_auth ⟨[⟨100, "Betty", false, 68, "pw"⟩], 101⟩ "k" 5).2.2.2.1
      ⟨some (natLit 100), 4, "k"⟩ rfl (by decide)

/-- C5: `Service.get_entries` returns all of the user's entries ordered by
date ascending, each expressed in the user's preferred unit, converting
only when the stored unit differs and leaving the stored weight unchanged
when the units match. -/
theorem C5_get_entries_spec (db : EntriesTable) (user : User) :
    List.Pairwise (fun a b => PyDate.le a.date b.date) (Service.get_entries db user) ∧
    (Service.get_entries db user).Perm
      ((db.rows.filter (fun r => r.user_id == user.id)).map
        (fun r => create_entry_from_row r user.metric)) ∧
    (∀ e ∈ Service.get_entries db user, e.is_metric = user.metric) ∧
    (∀ r : WeightLogEntryRow,
      (r.metric = user.metric → (create_entry_from_row r user.metric).weight = r.weight) ∧
      (r.metric ≠ user.metric → (create_entry_from_row r user.metric).weight =
        (if user.metric then convert_to_metric r.weight else convert_to_english r.weight))) := by
  refine ⟨?_, ?_, ?_, ?_⟩
  · have hs := List.sorted_insertionSort entryRowLe
      (db.rows.filter (fun r => r.user_id == user.id))
    exact hs.map _ (fun a b h => h)
  · exact (List.perm_insertionSort entryRowLe _).map _
  · intro e he
    obtain ⟨r, _, rfl⟩ := List.mem_map.mp he
    rfl
  · intro r
    constructor
    · intro h
      simp [create_entry_from_row, h]
    · intro h
      simp [create_entry_from_row, Ne.symm h]

/-- C5 witness: conversion facts and the output list for a concrete
two-row table. -/
theorem C5_get_entries_spec_witness :
    (create_entry_from_row ⟨100, 1, ⟨2022, 3, 22⟩, 70, true⟩ true).weight = 70 ∧
    (create_entry_from_row ⟨100, 1, ⟨2022, 3, 22⟩, 150, false⟩ true).weight =
      convert_to_metric 150 ∧
    (⟨some 100, 1, ⟨2022, 3, 22⟩, 70, true⟩ : WeightLogEntry).is_metric = true := by
  refine ⟨?_, ?_, ?_⟩
  · exact (C5_get_entries_spec ⟨[], 100⟩ ⟨1, "u", true, "kg", 65, "h"⟩).2.2.2
      ⟨100, 1, ⟨2022, 3, 22⟩, 70, true⟩ |>.1 rfl
  · exact (C5_get_entries_spec ⟨[], 100⟩ ⟨1, "u", true, "kg", 65, "h"⟩).2.2.2
      ⟨100, 1, ⟨2022, 3, 22⟩, 150, false⟩ |>.2 (by decide)
  · exact (C5_get_entries_spec ⟨[⟨100, 1, ⟨2022, 3, 22⟩, 70, true⟩], 101⟩
      ⟨1, "u", true, "kg", 65, "h"⟩).2.2.1 ⟨some 100, 1, ⟨2022, 3, 22⟩, 70, true⟩ (by decide)


/-- C6 counterexample: the header cells are stripped before comparison, so
`Date,Weight,Units` (no spaces) is accepted although the first line is not
exactly `Date, Weight, Units`. -/
theorem C6_counterexample :
    headerAccepted "Date,Weight,Units\n2022-01-01, 80, kg" = true ∧
    first_line "Date,Weight,Units\n2022-01-01, 80, kg" ≠ "Date, Weight, Units" := by
  constructor
  · decide
  · decide

/-- C6 amended: the import accepts a file exactly when the stripped first
line splits on commas into three cells whose stripped values are `Date`,
`Weight`, `Units`; any other column count or column names make the whole
file fail with the header error, before any data row is processed. -/
theorem C6_header_check (csv : String) (uid : ℕ) :
    (headerAccepted csv = true ↔
      (splitOnChar ',' (pyStrip ((splitOnChar '\n' csv.data).headD []))).map
        (fun c => String.mk (pyStrip c)) = ["Date", "Weight", "Units"]) ∧
    (∀ e, parse_csv_header csv = .error e → create_entries_from_csv uid csv = .error e) := by
  constructor
  · by_cases hempty : (pyStrip ((splitOnChar '\n' csv.data).headD [])).isEmpty
    · rw [headerAccepted, parse_csv_header]
      rw [if_pos hempty]
      rw [List.isEmpty_iff.mp hempty]
      simp only [show splitOnChar ',' ([] : List Char) = [[]] from rfl]
      simp
    · by_cases hlen :
        (splitOnChar ',' (pyStrip ((splitOnChar '\n' csv.data).headD []))).length = 3
      · obtain ⟨a, b, c, habc⟩ := List.length_eq_three.mp hlen
        rw [headerAccepted, parse_csv_header, if_neg hempty, habc]
        simp only [List.length_cons, List.length_nil, List.zip, List.zipWith,
          check_header_cells]
        split_ifs with h1 h2 h3 <;> simp_all
      · have h3 : (splitOnChar ',' (pyStrip ((splitOnChar '\n' csv.data).headD []))).length ≠ 3 :=
          hlen
        simp only [headerAccepted, parse_csv_header, if_neg hempty, if_pos h3]
        simp only [Bool.false_eq_true, false_iff]
        intro h
        apply hlen
        have := congrArg List.length h
        simpa using this
  · intro e h
    rw [create_entries_from_csv, h]

/-- C6 amended witness: the canonical header is accepted, a two-column
header is rejected with the column-count error, and a wrong name is
rejected with the column-name error; both reject the whole import. -/
theorem C6_header_check_witness :
    (headerAccepted "Date, Weight, Units\n2022-01-01, 80, kg" = true) ∧
    create_entries_from_csv 7 "Date,Weight\n2022-01-01, 80, kg" =
      .error (.headerColCount 2) ∧
    create_entries_from_csv 7 "Date, Wt, Units\n2022-01-01, 80, kg" =
      .error (.headerName 2 "Weight" "Wt") := by
  refine ⟨?_, ?_, ?_⟩
  · exact (C6_header_check "Date, Weight, Units\n2022-01-01, 80, kg" 7).1.mpr (by decide)
  · exact (C6_header_check "Date,Weight\n2022-01-01, 80, kg" 7).2 _ rfl
  · exact (C6_header_check "Date, Wt, Units\n2022-01-01, 80, kg" 7).2 _ rfl

theorem replaceFirstRow_exists {rows : List WeightLogEntryRow} {p : WeightLogEntryRow → Bool}
    {f : WeightLogEntryRow → WeightLogEntryRow} {Q : WeightLogEntryRow → Prop}
    (h : ∃ r ∈ rows, p r = true) (hf : ∀ r, p r = true → Q (f r)) :
    ∃ r' ∈ replaceFirstRow rows p f, Q r' := by
  induction rows with
  | nil => simp at h
  | cons r rest ih =>
    by_cases hp : p r = true
    · exact ⟨f r, by simp [replaceFirstRow, hp], hf r hp⟩
    · obtain ⟨r0, hr0, hpr0⟩ := h
      rcases List.mem_cons.mp hr0 with rfl | hmem
      · exact absurd hpr0 hp
      · obtain ⟨r', hr', hQ⟩ := ih ⟨r0, hmem, hpr0⟩
        exact ⟨r', by simp [replaceFirstRow, hp, hr'], hQ⟩

theorem replaceFirstRow_length (p : WeightLogEntryRow → Bool)
    (f : WeightLogEntryRow → WeightLogEntryRow) :
    ∀ rows, (replaceFirstRow rows p f).length = rows.length := by
  intro rows
  induction rows with
  | nil => rfl
  | cons r rest ih =>
    by_cases hp : p r = true
    · simp [replaceFirstRow, hp]
    · simp [replaceFirstRow, hp, ih]

theorem replaceFirstRow_find? {p : WeightLogEntryRow → Bool}
    {f : WeightLogEntryRow → WeightLogEntryRow} {r : WeightLogEntryRow} :
    ∀ {rows : List WeightLogEntryRow}, rows.find? p = some r →
      f r ∈ replaceFirstRow rows p f := by
  intro rows
  induction rows with
  | nil => intro h; simp at h
  | cons r0 rest ih =>
    intro h
    by_cases hp : p r0 = true
    · rw [List.find?_cons_of_pos _ hp] at h
      obtain rfl := Option.some.inj h
      simp [replaceFirstRow, hp]
    · rw [List.find?_cons_of_neg _ (by simpa using hp)] at h
      simp only [replaceFirstRow, hp, if_false]
      exact List.mem_cons_of_mem _ (ih h)

/-- C10: the CSV-import save loop stores the parsed weight exactly, while
`Service.add_entry` stores the weight rounded to one decimal; so whenever
the parsed weight needs more than one fractional digit the two paths store
different values. -/
theorem C10_import_weight_exact (db : EntriesTable) (e : WeightLogEntry) :
    (∃ r ∈ (upsert_entry db e).rows,
      r.user_id = e.user_id ∧ r.date = e.date ∧ r.weight = e.weight) ∧
    (∀ db' e', Service.add_entry db e = .ok (db', e') → e'.weight = pyRound e.weight 1) ∧
    ((qscale e.weight 1).den ≠ 1 → e.weight ≠ pyRound e.weight 1) := by
  refine ⟨?_, ?_, ?_⟩
  · rcases hq : query_for_entry_by_user_and_date db.rows e.user_id e.date with _ | row
    · refine ⟨create_row_from_entry e db.nextId, ?_, rfl, rfl, rfl⟩
      simp [upsert_entry, hq]
    · have hfind := hq
      rw [query_for_entry_by_user_and_date] at hfind
      have hpred := List.find?_some hfind
      have hmem := List.mem_of_find?_eq_some hfind
      obtain ⟨hru, hrd⟩ : row.user_id = e.user_id ∧ row.date = e.date := by
        simpa using hpred
      by_cases hupd : row.weight ≠ e.weight ∨ row.metric ≠ e.is_metric
      · simp only [upsert_entry, hq, if_pos hupd]
        refine replaceFirstRow_exists ⟨row, hmem, by simpa using ⟨hru, hrd⟩⟩ ?_
        intro r hr
        obtain ⟨h1, h2⟩ : r.user_id = e.user_id ∧ r.date = e.date := by simpa using hr
        exact ⟨h1, h2, rfl⟩
      · push_neg at hupd
        have hcond : ¬(row.weight ≠ e.weight ∨ row.metric ≠ e.is_metric) := by
          push_neg
          exact hupd
        simp only [upsert_entry, hq, if_neg hcond]
        exact ⟨row, hmem, hru, hrd, hupd.1⟩
  · intro db' e' hok
    rw [add_entry_def] at hok
    by_cases hq : (query_for_entry_by_user_and_date db.rows e.user_id e.date).isSome
    · simp [hq] at hok
    · simp only [hq, if_false] at hok
      obtain ⟨-, he⟩ := by simpa using hok
      subst he
      rfl
  · intro hden heq
    apply hden
    rw [qscale_eq]
    have hk : e.weight * 10 ^ 1 = (pyRoundInt (e.weight * 10 ^ 1) : ℚ) := by
      conv_lhs => rw [heq]
      rw [pyRound_eq, div_mul_cancel₀ _ (by norm_num : ((10 : ℚ) ^ 1) ≠ 0)]
    rw [hk, Rat.den_intCast]

/-- C10 witness: importing the weight `1.25` stores `5/4` exactly, while
`add_entry` stores its one-decimal rounding, which differs. -/
theorem C10_import_weight_exact_witness :
    (∃ r ∈ (upsert_entry ⟨[], 100⟩ ⟨none, 1, ⟨2022, 3, 22⟩, Rat.divInt 5 4, true⟩).rows,
      r.user_id = 1 ∧ r.date = ⟨2022, 3, 22⟩ ∧ r.weight = Rat.divInt 5 4) ∧
    (∃ db' e', Service.add_entry ⟨[], 100⟩ ⟨none, 1, ⟨2022, 3, 22⟩, Rat.divInt 5 4, true⟩ =
      .ok (db', e') ∧ e'.weight = pyRound (Rat.divInt 5 4) 1) ∧
    Rat.divInt 5 4 ≠ pyRound (Rat.divInt 5 4) 1 := by
  refine ⟨?_, ?_, ?_⟩
  · exact (C10_import_weight_exact ⟨[], 100⟩ ⟨none, 1, ⟨2022, 3, 22⟩, Rat.divInt 5 4, true⟩).1
  · exact ⟨_, _, rfl,
      (C10_import_weight_exact ⟨[], 100⟩ ⟨none, 1, ⟨2022, 3, 22⟩, Rat.divInt 5 4, true⟩).2.1
        _ _ rfl⟩
  · exact (C10_import_weight_exact ⟨[], 100⟩
      ⟨none, 1, ⟨2022, 3, 22⟩, Rat.divInt 5 4, true⟩).2.2 (by decide)

theorem persist_entries_none :
    ∀ (es : List WeightLogEntry) (i : ℕ) (db : EntriesTable),
      persist_entries none i db es = .ok (es.foldl upsert_entry db) := by
  intro es
  induction es with
  | nil => intro i db; rfl
  | cons e rest ih =>
    intro i db
    rw [persist_entries, if_neg (by simp), List.foldl_cons]
    exact ih (i + 1) _

theorem persist_entries_fail :
    ∀ (es : List WeightLogEntry) (j i : ℕ) (db : EntriesTable), j < es.length →
      persist_entries (some (i + j)) i db es =
        .error ⟨.internalServerError, .saveFailed⟩ := by
  intro es
  induction es with
  | nil => intro j i db h; simp at h
  | cons e rest ih =>
    intro j i db h
    rcases j with _ | j'
    · rw [persist_entries, if_pos (by simp)]
    · rw [persist_entries, if_neg (by simp only [Option.some.injEq]; omega)]
      rw [show i + (j' + 1) = (i + 1) + j' by omega]
      exact ih j' (i + 1) _ (by simpa using h)

theorem parse_csv_date_error {v : List Char} {n : ℕ} {e : WLError} :
    parse_csv_date v n = .error e → e = .dateParse (String.mk v) n := by
  intro h
  rw [parse_csv_date] at h
  split at h
  · split_ifs at h
    all_goals first
      | exact (Except.error.inj h).symm
      | simp at h
  · exact (Except.error.inj h).symm

theorem parse_csv_weight_error {v : List Char} {n : ℕ} {e : WLError} :
    parse_csv_weight v n = .error e → e = .weightParse (String.mk v) n := by
  intro h
  rw [parse_csv_weight] at h
  split at h
  all_goals first
    | exact (Except.error.inj h).symm
    | simp at h

theorem parse_csv_units_error {v : List Char} {n : ℕ} {e : WLError} :
    parse_csv_units v n = .error e → e = .unitsParse (String.mk (pyStrip v)) n := by
  intro h
  rw [parse_csv_units] at h
  split_ifs at h
  all_goals first
    | exact (Except.error.inj h).symm
    | simp at h

theorem parse_csv_line_error_line (uid n : ℕ) (raw : List Char) (e : WLError) :
    parse_csv_line uid n raw = .error e → e.lineNo? = some n := by
  intro h
  rw [parse_csv_line] at h
  split at h
  · simp at h
  · split at h
    · split at h
      · rename_i heq
        obtain rfl := (Except.error.inj h).symm
        obtain rfl := parse_csv_date_error heq
        rfl
      · split at h
        · rename_i heq
          obtain rfl := (Except.error.inj h).symm
          obtain rfl := parse_csv_weight_error heq
          rfl
        · split at h
          · rename_i heq
            obtain rfl := (Except.error.inj h).symm
            obtain rfl := parse_csv_units_error heq
            rfl
          · simp at h
    · obtain rfl := (Except.error.inj h).symm
      rfl

theorem add_entries_from_csv_ok {uid : ℕ} {csv : String} {entries : List WeightLogEntry}
    {failAt : Option ℕ} {db : EntriesTable}
    (h : create_entries_from_csv uid csv = .ok entries) :
    Service.add_entries_from_csv failAt db uid csv = persist_entries failAt 0 db entries := by
  rw [Service.add_entries_from_csv, h]

theorem add_entries_from_csv_err {uid : ℕ} {csv : String} {e : WLError}
    {failAt : Option ℕ} {db : EntriesTable}
    (h : create_entries_from_csv uid csv = .error e) :
    Service.add_entries_from_csv failAt db uid csv =
      .error ⟨.internalServerError, .csvParse e⟩ := by
  rw [Service.add_entries_from_csv, h]

theorem parse_csv_body_error_line (uid : ℕ) :
    ∀ (lines : List (List Char)) (n : ℕ) (e : WLError),
      parse_csv_body uid n lines = .error e → ∃ k, e.lineNo? = some k ∧ n ≤ k := by
  intro lines
  induction lines with
  | nil => intro n e h; simp [parse_csv_body] at h
  | cons l rest ih =>
    intro n e h
    rw [parse_csv_body] at h
    rcases hline : parse_csv_line uid n l with el | oe
    · rw [hline] at h
      obtain rfl := by simpa using h.symm
      exact ⟨n, parse_csv_line_error_line uid n l _ hline, le_refl n⟩
    · rw [hline] at h
      rcases oe with _ | entry
      · obtain ⟨k, hk, hnk⟩ := ih (n + 1) e h
        exact ⟨k, hk, by omega⟩
      · rcases hr : parse_csv_body uid (n + 1) rest with er | es <;> rw [hr] at h
        · obtain rfl := by simpa using h.symm
          obtain ⟨k, hk, hnk⟩ := ih (n + 1) e hr
          exact ⟨k, hk, by omega⟩
        · simp at h

/-- C1 (amended): CSV import parses the whole file first — any data-line
parse failure names a line number and fails the import with the table
unchanged — and then persists all parsed rows in a single transaction: a
database failure partway through the file rolls back every row of the file
(none of the earlier rows of the same file survive); on success each parsed
entry is applied with upsert semantics — inserted when no `(user, date)`
row exists, the existing row updated in place when weight or unit differs,
and skipped (table unchanged) otherwise. -/
theorem C1_csv_import_amended (uid : ℕ) (csv : String) (db : EntriesTable) :
    (∀ (lines : List (List Char)) (n : ℕ) (e : WLError),
      parse_csv_body uid n lines = .error e →
      ∃ k, WLError.lineNo? e = some k ∧ n ≤ k) ∧
    (∀ e, create_entries_from_csv uid csv = .error e → ∀ failAt,
      Service.add_entries_from_csv failAt db uid csv =
        .error ⟨.internalServerError, .csvParse e⟩ ∧
      result_table db (Service.add_entries_from_csv failAt db uid csv) = db) ∧
    (∀ (entries : List WeightLogEntry) (k : ℕ),
      create_entries_from_csv uid csv = .ok entries → k < entries.length →
      Service.add_entries_from_csv (some k) db uid csv =
        .error ⟨.internalServerError, .saveFailed⟩ ∧
      result_table db (Service.add_entries_from_csv (some k) db uid csv) = db) ∧
    (∀ entries, create_entries_from_csv uid csv = .ok entries →
      Service.add_entries_from_csv none db uid csv =
        .ok (entries.foldl upsert_entry db)) ∧
    (∀ (t : EntriesTable) (e : WeightLogEntry) r,
      query_for_entry_by_user_and_date t.rows e.user_id e.date = some r →
      r.weight = e.weight → r.metric = e.is_metric → upsert_entry t e = t) ∧
    (∀ (t : EntriesTable) (e : WeightLogEntry),
      query_for_entry_by_user_and_date t.rows e.user_id e.date = none →
      upsert_entry t e =
        { rows := t.rows ++ [create_row_from_entry e t.nextId],
          nextId := t.nextId + 1 }) ∧
    (∀ (t : EntriesTable) (e : WeightLogEntry) r,
      query_for_entry_by_user_and_date t.rows e.user_id e.date = some r →
      (r.weight ≠ e.weight ∨ r.metric ≠ e.is_metric) →
      (upsert_entry t e).nextId = t.nextId ∧
      (upsert_entry t e).rows.length = t.rows.length ∧
      ∃ r' ∈ (upsert_entry t e).rows, r'.id = r.id ∧ r'.user_id = e.user_id ∧
        r'.date = e.date ∧ r'.weight = e.weight ∧ r'.metric = e.is_metric) := by
  refine ⟨parse_csv_body_error_line uid, ?_, ?_, ?_, ?_, ?_, ?_⟩
  · intro e h failAt
    rw [add_entries_from_csv_err h]
    exact ⟨rfl, rfl⟩
  · intro entries k hok hk
    rw [add_entries_from_csv_ok hok, show k = 0 + k by omega,
      persist_entries_fail entries k 0 db hk]
    exact ⟨rfl, rfl⟩
  · intro entries hok
    rw [add_entries_from_csv_ok hok, persist_entries_none]
  · intro t e r hq hw hm
    have hcond : ¬(r.weight ≠ e.weight ∨ r.metric ≠ e.is_metric) := by
      push_neg
      exact ⟨hw, hm⟩
    simp only [upsert_entry, hq, if_neg hcond]
  · intro t e hq
    simp only [upsert_entry, hq]
  · intro t e r hq hupd
    have hfind := hq
    rw [query_for_entry_by_user_and_date] at hfind
    refine ⟨?_, ?_, ?_⟩
    · simp only [upsert_entry, hq, if_pos hupd]
    · simp only [upsert_entry, hq, if_pos hupd]
      exact replaceFirstRow_length _ _ _
    · simp only [upsert_entry, hq, if_pos hupd]
      have hpred : r.user_id = e.user_id ∧ r.date = e.date := by
        simpa using List.find?_some hfind
      exact ⟨_, replaceFirstRow_find? hfind, rfl, hpred.1, hpred.2, rfl, rfl⟩

/-- C1 counterexample: persistence is atomic per file, not per row — with a
two-row file and a database failure injected before the second row, the
first row does not survive: the stored table is unchanged (empty), refuting
"a failure partway through persistence does not roll back rows already
committed from the same file". -/
theorem C1_csv_import_counterexample :
    create_entries_from_csv 7 "Date, Weight, Units\n2022-01-01, 80, kg\n2022-01-02, 81, kg" =
      .ok [⟨none, 7, ⟨2022, 1, 1⟩, 80, true⟩, ⟨none, 7, ⟨2022, 1, 2⟩, 81, true⟩] ∧
    Service.add_entries_from_csv (some 1) ⟨[], 100⟩ 7
        "Date, Weight, Units\n2022-01-01, 80, kg\n2022-01-02, 81, kg" =
      .error ⟨.internalServerError, .saveFailed⟩ ∧
    (result_table ⟨[], 100⟩ (Service.add_entries_from_csv (some 1) ⟨[], 100⟩ 7
        "Date, Weight, Units\n2022-01-01, 80, kg\n2022-01-02, 81, kg")).rows = [] := by
  refine ⟨rfl, rfl, rfl⟩

/-- C1 amended witness: a concrete malformed weight on line 3 names line 3
and fails the import with the table unchanged; a concrete two-row file with
a failure injected at the second row fails with the table unchanged; and
with no failure a one-row import succeeds. -/
theorem C1_csv_import_amended_witness :
    (Service.add_entries_from_csv none ⟨[], 100⟩ 7
        "Date, Weight, Units\n2022-01-01, 80, kg\n2022-01-02, oops, kg" =
      .error ⟨.internalServerError, .csvParse (.weightParse " oops" 3)⟩) ∧
    (result_table ⟨[], 100⟩ (Service.add_entries_from_csv (some 0) ⟨[], 100⟩ 7
        "Date, Weight, Units\n2022-01-01, 80, kg") = ⟨[], 100⟩) ∧
    (Service.add_entries_from_csv none ⟨[], 100⟩ 7 "Date, Weight, Units\n2022-01-01, 80, kg" =
      .ok ([⟨none, 7, ⟨2022, 1, 1⟩, 80, true⟩].foldl upsert_entry ⟨[], 100⟩)) := by
  refine ⟨?_, ?_, ?_⟩
  · exact ((C1_csv_import_amended 7
      "Date, Weight, Units\n2022-01-01, 80, kg\n2022-01-02, oops, kg" ⟨[], 100⟩).2.1
      (.weightParse " oops" 3) rfl none).1
  · exact ((C1_csv_import_amended 7 "Date, Weight, Units\n2022-01-01, 80, kg" ⟨[], 100⟩).2.2.1
      [⟨none, 7, ⟨2022, 1, 1⟩, 80, true⟩] 0 rfl (by decide)).2
  · exact (C1_csv_import_amended 7 "Date, Weight, Units\n2022-01-01, 80, kg" ⟨[], 100⟩).2.2.2.1
      [⟨none, 7, ⟨2022, 1, 1⟩, 80, true⟩] rfl


theorem create_entries_from_csv_ok {uid : ℕ} {csv : String} {entries : List WeightLogEntry}
    (h : create_entries_from_csv uid csv = .ok entries) :
    ∃ lines, parse_csv_header csv = .ok lines ∧ parse_csv_body uid 2 lines = .ok entries := by
  rw [create_entries_from_csv] at h
  split at h
  · exact absurd h (by simp)
  · rename_i lines heq
    exact ⟨lines, heq, h⟩

theorem parse_csv_line_ok_user {uid n : ℕ} {raw : List Char} {e : WeightLogEntry} :
    parse_csv_line uid n raw = .ok (some e) → e.user_id = uid := by
  intro h
  rw [parse_csv_line] at h
  split at h
  · simp at h
  · split at h
    · split at h
      · simp at h
      · split at h
        · simp at h
        · split at h
          · simp at h
          · obtain rfl := Option.some.inj (Except.ok.inj h)
            rfl
    · simp at h

theorem parse_csv_body_user_id (uid : ℕ) :
    ∀ (lines : List (List Char)) (n : ℕ) (es : List WeightLogEntry),
      parse_csv_body uid n lines = .ok es → ∀ e ∈ es, e.user_id = uid := by
  intro lines
  induction lines with
  | nil =>
    intro n es h e he
    obtain rfl := (Except.ok.inj h).symm
    simp at he
  | cons l rest ih =>
    intro n es h e he
    rw [parse_csv_body] at h
    split at h
    · simp at h
    · exact ih (n + 1) es h e he
    · rename_i entry hline
      split at h
      · simp at h
      · rename_i es' hrest
        obtain rfl := (Except.ok.inj h).symm
        rcases List.mem_cons.mp he with rfl | hmem
        · exact parse_csv_line_ok_user hline
        · exact ih (n + 1) es' hrest e hmem

theorem buildRows_user_id {uid : ℕ} :
    ∀ (es : List WeightLogEntry) (k : ℕ), (∀ e ∈ es, e.user_id = uid) →
      ∀ r ∈ buildRows k es, r.user_id = uid := by
  intro es
  induction es with
  | nil => intro k _ r hr; simp [buildRows] at hr
  | cons e rest ih =>
    intro k hu r hr
    rcases List.mem_cons.mp hr with rfl | hmem
    · exact hu e (by simp)
    · exact ih (k + 1) (fun e' he' => hu e' (List.mem_cons_of_mem _ he')) r hmem

theorem buildRows_map_proj (m : Bool) :
    ∀ (es : List WeightLogEntry) (k : ℕ),
      (buildRows k es).map (fun r => entryProj (create_entry_from_row r m)) =
        es.map (projForUser m) := by
  intro es
  induction es with
  | nil => intro k; rfl
  | cons e rest ih =>
    intro k
    simp only [buildRows, List.map_cons, ih]
    congr 1
    by_cases hm : m = e.is_metric
    · simp [entryProj, projForUser, create_entry_from_row, create_row_from_entry, hm]
    · simp [entryProj, projForUser, create_entry_from_row, create_row_from_entry, hm]

theorem csv_upsert_foldl (uid : ℕ) :
    ∀ (es : List WeightLogEntry) (t : EntriesTable),
      (∀ e ∈ es, e.user_id = uid) →
      (es.map (fun e => e.date)).Nodup →
      (∀ e ∈ es, query_for_entry_by_user_and_date t.rows uid e.date = none) →
      (es.foldl upsert_entry t).rows = t.rows ++ buildRows t.nextId es := by
  intro es
  induction es with
  | nil => intro t _ _ _; simp [buildRows]
  | cons e rest ih =>
    intro t hu hnd hq
    have hue : e.user_id = uid := hu e (by simp)
    have hqe : query_for_entry_by_user_and_date t.rows e.user_id e.date = none := by
      rw [hue]
      exact hq e (by simp)
    have hnd' : (rest.map (fun e => e.date)).Nodup :=
      (List.nodup_cons.mp (by simpa using hnd)).2
    have hdate : e.date ∉ rest.map (fun e => e.date) :=
      (List.nodup_cons.mp (by simpa using hnd)).1
    have hqs : ∀ e' ∈ rest, query_for_entry_by_user_and_date
        (t.rows ++ [create_row_from_entry e t.nextId]) uid e'.date = none := by
      intro e' he'
      rw [query_eq_none_iff]
      intro r hr
      rcases List.mem_append.mp hr with hold | hnew
      · have := (query_eq_none_iff t.rows uid e'.date).mp
          (hq e' (List.mem_cons_of_mem _ he')) r hold
        simpa using this
      · obtain rfl : r = create_row_from_entry e t.nextId := by simpa using hnew
        rintro ⟨-, h2⟩
        apply hdate
        have hde : e.date = e'.date := h2
        rw [hde]
        exact List.mem_map.mpr ⟨e', he', rfl⟩
    have hup : upsert_entry t e =
        ⟨t.rows ++ [create_row_from_entry e t.nextId], t.nextId + 1⟩ := by
      simp only [upsert_entry, hqe]
    rw [List.foldl_cons, hup]
    rw [ih ⟨t.rows ++ [create_row_from_entry e t.nextId], t.nextId + 1⟩
      (fun e' he' => hu e' (List.mem_cons_of_mem _ he')) hnd' hqs]
    simp [buildRows]

/-- C8 (amended): for every valid CSV whose data rows have pairwise
distinct dates, importing into an empty entry set and then reading the
entries back for the importing user yields exactly the parsed rows as a
set: dates preserved, weights preserved up to the conversion applied when
the user's preferred unit differs from the imported unit; the exported CSV
is the header followed by the formatted lines of those entries. -/
theorem C8_roundtrip_amended (uid n : ℕ) (csv : String) (user : User)
    (entries : List WeightLogEntry) (db' : EntriesTable)
    (hparse : create_entries_from_csv uid csv = .ok entries)
    (hdist : (entries.map (fun e => e.date)).Nodup)
    (himp : Service.add_entries_from_csv none ⟨[], n⟩ uid csv = .ok db')
    (huid : user.id = uid) :
    ((Service.get_entries db' user).map entryProj).Perm
      (entries.map (projForUser user.metric)) ∧
    Service.get_entries_csv db' user =
      create_csv_header ++ "\n" ++ String.intercalate "\n"
        ((Service.get_entries db' user).map WeightLogEntry.format_as_csv) := by
  have hdb : db' = entries.foldl upsert_entry ⟨[], n⟩ := by
    rw [add_entries_from_csv_ok hparse, persist_entries_none] at himp
    exact (Except.ok.inj himp).symm
  have husers : ∀ e ∈ entries, e.user_id = uid := by
    obtain ⟨lines, -, hbody⟩ := create_entries_from_csv_ok hparse
    exact parse_csv_body_user_id uid lines 2 entries hbody
  have hrows : db'.rows = buildRows n entries := by
    rw [hdb]
    have := csv_upsert_foldl uid entries ⟨[], n⟩ husers hdist ?_
    · simpa using this
    · intro e he
      rw [query_eq_none_iff]
      intro r hr
      simp at hr
  refine ⟨?_, rfl⟩
  have hfilter : db'.rows.filter (fun r => r.user_id == user.id) = db'.rows := by
    rw [List.filter_eq_self]
    intro r hr
    have hru : r.user_id = uid := by
      refine buildRows_user_id entries n husers r ?_
      rw [← hrows]
      exact hr
    simp [hru, huid]
  rw [Service.get_entries, hfilter, List.map_map]
  have heq2 : db'.rows.map (entryProj ∘ fun r => create_entry_from_row r user.metric) =
      entries.map (projForUser user.metric) := by
    rw [hrows]
    exact buildRows_map_proj user.metric entries n
  rw [← heq2]
  exact (List.perm_insertionSort entryRowLe db'.rows).map _

/-- C8 counterexample: with two data rows sharing a date, import upserts
the second over the first, so the set of entries read back (one entry) is
not equivalent to the file's data rows (two): the first row's weight is not
preserved anywhere. -/
theorem C8_roundtrip_counterexample :
    create_entries_from_csv 7 "Date, Weight, Units\n2022-01-01, 100, kg\n2022-01-01, 101, kg" =
      .ok [⟨none, 7, ⟨2022, 1, 1⟩, 100, true⟩, ⟨none, 7, ⟨2022, 1, 1⟩, 101, true⟩] ∧
    Service.add_entries_from_csv none ⟨[], 100⟩ 7
        "Date, Weight, Units\n2022-01-01, 100, kg\n2022-01-01, 101, kg" =
      .ok ⟨[⟨100, 7, ⟨2022, 1, 1⟩, 101, true⟩], 101⟩ ∧
    ¬ ((Service.get_entries ⟨[⟨100, 7, ⟨2022, 1, 1⟩, 101, true⟩], 101⟩
          ⟨7, "u", true, "kg", 65, "h"⟩).map entryProj).Perm
        ([(⟨none, 7, ⟨2022, 1, 1⟩, 100, true⟩ : WeightLogEntry),
         ⟨none, 7, ⟨2022, 1, 1⟩, 101, true⟩].map (projForUser true)) := by
  refine ⟨rfl, rfl, ?_⟩
  intro hperm
  have h1 : (Service.get_entries ⟨[⟨100, 7, ⟨2022, 1, 1⟩, 101, true⟩], 101⟩
      ⟨7, "u", true, "kg", 65, "h"⟩).map entryProj =
      [(⟨2022, 1, 1⟩, (101 : ℚ), true)] := rfl
  rw [h1] at hperm
  have := hperm.length_eq
  simp at this

/-- C8 amended witness: a concrete two-row file with distinct dates
round-trips to the same set of entries. -/
theorem C8_roundtrip_amended_witness :
    ((Service.get_entries
        ⟨[⟨100, 7, ⟨2022, 1, 2⟩, 81, true⟩, ⟨101, 7, ⟨2022, 1, 1⟩, 80, true⟩], 102⟩
        ⟨7, "u", true, "kg", 65, "h"⟩).map entryProj).Perm
      ([(⟨none, 7, ⟨2022, 1, 2⟩, 81, true⟩ : WeightLogEntry),
       ⟨none, 7, ⟨2022, 1, 1⟩, 80, true⟩].map (projForUser true)) := by
  exact (C8_roundtrip_amended 7 100
    "Date, Weight, Units\n2022-01-02, 81, kg\n2022-01-01, 80, kg"
    ⟨7, "u", true, "kg", 65, "h"⟩
    [⟨none, 7, ⟨2022, 1, 2⟩, 81, true⟩, ⟨none, 7, ⟨2022, 1, 1⟩, 80, true⟩]
    ⟨[⟨100, 7, ⟨2022, 1, 2⟩, 81, true⟩, ⟨101, 7, ⟨2022, 1, 1⟩, 80, true⟩], 102⟩
    rfl (by decide) rfl rfl).1

end WeightLog

